import Mathlib

/-!
Verification of the committed-file write primitive (fsynctest.cpp).

The program is single-threaded, synchronous systems code built from POSIX
syscalls.  We shallow-embed it as pure Lean functions over an explicit
model of the parent directory's state.  Syscall failures are injected by
an environment value that records, for each syscall the protocol issues,
whether it succeeds or fails and with which errno; write syscalls
additionally report a byte count.  Byte sequences are `List Nat`.
-/

namespace FsyncTest

/-- errno value ENOENT (the only errno the code inspects by value). -/
def ENOENT : Nat := 2

/-- Outcome of a syscall that either succeeds or fails with an errno. -/
inductive SysRes where
  | ok : SysRes
  | err (errno : Nat) : SysRes
deriving DecidableEq, Repr

/-- Structured I/O error carried by the exceptions that
`buildCommittedFileError` renders: operation name, directory, up to two
file operands (empty string = absent), and the errno. -/
structure IoError where
  op : String
  directory : String
  file1 : String
  file2 : String
  errno : Nat
deriving DecidableEq, Repr

/-- Structured error carried by the reader's exceptions, rendered by
`buildCommittedFileReadError`: operation name, the full path, errno. -/
structure ReadError where
  op : String
  path : String
  errno : Nat
deriving DecidableEq, Repr

/-- Embedding of `buildCommittedFileError` (fsynctest.cpp lines 68-82).
`strerror` stands for the C library's errno-to-text function and is
passed in as a parameter. -/
def buildCommittedFileError (strerror : Nat → String) (func directory file1 file2 : String)
    (error : Nat) : String :=
  func ++ "(\"" ++ directory ++
    (if file1 = "" then "" else "/" ++ file1) ++
    (if file2 = "" then "" else "\", \"" ++ directory ++ "/" ++ file2) ++
    "\"): " ++ strerror error

/-- Embedding of `buildCommittedFileReadError` (fsynctest.cpp lines 84-92).
Note the source emits `") "` (closing quote, parenthesis, space) before
the strerror text, with no colon. -/
def buildCommittedFileReadError (strerror : Nat → String) (func file : String)
    (error : Nat) : String :=
  func ++ "(\"" ++ file ++ "\") " ++ strerror error

/-- Modelled from the spec: the error string form claimed in spec.md section 6,
`op("<dir>[/<f1>]"[, "<dir>/<f2>"]): <strerror(errno)>`, for comparison
against the builders embedded from the source. -/
def specErrorForm (strerror : Nat → String) (op directory f1 f2 : String) (errno : Nat) : String :=
  op ++ "(\"" ++ directory ++
    (if f1 = "" then "" else "/" ++ f1) ++
    (if f2 = "" then "" else "\", \"" ++ directory ++ "/" ++ f2) ++
    "\"): " ++ strerror errno

/-- Render an `IoError` the way the commit-protocol code does. -/
def renderIoError (strerror : Nat → String) (e : IoError) : String :=
  buildCommittedFileError strerror e.op e.directory e.file1 e.file2 e.errno

/-- Render a `ReadError` the way the reader does. -/
def renderReadError (strerror : Nat → String) (e : ReadError) : String :=
  buildCommittedFileReadError strerror e.op e.path e.errno

/-- The temporary sibling name: basename + ".work"
(`fileName + ".work"` in `CommittedFile::write` and `cleanup`). -/
def workName (fileName : String) : String := fileName ++ ".work"

/-- Permission bits passed to `openat` in `WriteFd::WriteFd`:
`S_IRUSR | S_IWUSR | S_IRGRP | S_IROTH`. -/
def createMode : Nat := 256 ||| 128 ||| 32 ||| 4

/-- State of the parent directory: contents bound to the target name and
to the `.work` sibling (`none` = the name is absent). -/
structure DirState where
  target : Option (List Nat)
  work : Option (List Nat)
deriving DecidableEq, Repr

/-- Result of one `::write` syscall as seen by `WriteFd::writeAll`:
either it wrote `n` bytes (return value `n ≥ 0`) or it failed
(return value `-1`) with the given errno. -/
inductive WriteRet where
  | wrote (n : Nat) : WriteRet
  | failWith (errno : Nat) : WriteRet
deriving DecidableEq, Repr

/-- Result of the `writeAll` loop.  `done w` / `failed w e` carry the
offset `written` reached; `exhausted` means the syscall oracle ran out
of responses while bytes remained (the modelled execution is cut off,
not a behaviour of the code). -/
inductive WriteAllRes where
  | done (written : Nat) : WriteAllRes
  | failed (written : Nat) (errno : Nat) : WriteAllRes
  | exhausted (written : Nat) : WriteAllRes
deriving DecidableEq, Repr

/-- Embedding of the loop of `WriteFd::writeAll` (fsynctest.cpp lines
286-303): while `written < size`, issue a `::write` of the remaining
bytes; a negative return aborts, otherwise `written` advances by the
reported count.  `rets` is the oracle of syscall results. -/
def writeAllGo (size : Nat) (written : Nat) (rets : List WriteRet) : WriteAllRes :=
  if size ≤ written then .done written
  else
    match rets with
    | [] => .exhausted written
    | .failWith e :: _ => .failed written e
    | .wrote n :: rest => writeAllGo size (written + n) rest

/-- Oracle validity: each `::write` syscall reports at most the number of
bytes it was asked to write (`size - written`), as POSIX guarantees. -/
def validRets (size written : Nat) : List WriteRet → Bool
  | [] => true
  | .failWith _ :: _ => true
  | .wrote n :: rest =>
      if written < size then decide (written + n ≤ size) && validRets size (written + n) rest
      else true

/-- Outcome of `WriteFd::writeAll` at the object level: success, a thrown
`IoError`, or oracle exhaustion (model cut-off). -/
inductive WriteAllOutcome where
  | ok (written : Nat) : WriteAllOutcome
  | ioError (e : IoError) : WriteAllOutcome
  | oracleExhausted (written : Nat) : WriteAllOutcome
deriving DecidableEq, Repr

/-- Embedding of `WriteFd::writeAll` including the exception it throws:
a negative syscall return raises `IoError("write", directory, file)`
with the errno of the failing call. -/
def writeAll (directory file : String) (size : Nat) (rets : List WriteRet) : WriteAllOutcome :=
  match writeAllGo size 0 rets with
  | .done w => .ok w
  | .failed _ e => .ioError ⟨"write", directory, file, "", e⟩
  | .exhausted w => .oracleExhausted w

/-- Syscall results for one run of `CommittedFile::write`, in protocol
order.  `writeRets` is the oracle for the `::write` loop. -/
structure WriteEnv where
  openDirRes : SysRes
  createRes : SysRes
  writeRets : List WriteRet
  syncWorkRes : SysRes
  closeWorkRes : SysRes
  renameRes : SysRes
  syncDirRes : SysRes
  closeDirRes : SysRes
deriving DecidableEq, Repr

/-- A `WriteEnv` in which every syscall succeeds; the `::write` oracle is
given explicitly. -/
def allOkWriteEnv (rets : List WriteRet) : WriteEnv :=
  ⟨.ok, .ok, rets, .ok, .ok, .ok, .ok, .ok⟩

/-- One syscall step of the commit protocol, as it appears in the trace. -/
inductive Step where
  | openDir (dir : String) : Step
  | createWork (name : String) (mode : Nat) : Step
  | writeAllStep (name : String) : Step
  | syncWork (name : String) : Step
  | closeWork (name : String) : Step
  | renameWork (oldName newName : String) : Step
  | syncDir (dir : String) : Step
  | closeDir (dir : String) : Step
deriving DecidableEq, Repr

/-- Result of one run of `CommittedFile::write`: the trace of protocol
steps attempted (each failing step included), the resulting directory
state, and the thrown `IoError`, if any. -/
structure WriteOutcome where
  trace : List Step
  state : DirState
  error : Option IoError
deriving DecidableEq, Repr

/-- The full commit-protocol trace in its fixed order
(`CommittedFile::write`, fsynctest.cpp lines 315-337). -/
def canonicalTrace (directory fileName : String) : List Step :=
  [.openDir directory,
   .createWork (workName fileName) createMode,
   .writeAllStep (workName fileName),
   .syncWork (workName fileName),
   .closeWork (workName fileName),
   .renameWork (workName fileName) fileName,
   .syncDir directory,
   .closeDir directory]

/-- The first `k` steps of the commit protocol. -/
def tracePrefix (directory fileName : String) (k : Nat) : List Step :=
  (canonicalTrace directory fileName).take k

/-- The syscall operation name a protocol step reports on failure
(the first argument passed to `buildCommittedFileError`). -/
def stepOp : Step → String
  | .openDir _ => "open"
  | .createWork _ _ => "open"
  | .writeAllStep _ => "write"
  | .syncWork _ => "fsync"
  | .closeWork _ => "close"
  | .renameWork _ _ => "rename"
  | .syncDir _ => "fsync"
  | .closeDir _ => "close"

/-- Embedding of `CommittedFile::write` (fsynctest.cpp lines 315-337):
open the parent directory, create-or-truncate the `.work` sibling with
mode `createMode`, `writeAll` the payload, `fsync` it, `close` it,
`renameat` it over the target, `fsync` the directory, `close` the
directory.  A failing step throws the corresponding `IoError` and no
further step runs.  Returns `none` only when the `::write` oracle is
exhausted (model cut-off, not a behaviour of the code). -/
def commitWrite (directory fileName : String) (data : List Nat) (env : WriteEnv)
    (st : DirState) : Option WriteOutcome :=
  let wname := workName fileName
  match env.openDirRes with
  | .err e => some ⟨[.openDir directory], st, some ⟨"open", directory, "", "", e⟩⟩
  | .ok =>
    match env.createRes with
    | .err e =>
        some ⟨[.openDir directory, .createWork wname createMode], st,
              some ⟨"open", directory, wname, "", e⟩⟩
    | .ok =>
      let st1 : DirState := { st with work := some [] }
      let tr3 := [Step.openDir directory, .createWork wname createMode, .writeAllStep wname]
      match writeAllGo data.length 0 env.writeRets with
      | .exhausted _ => none
      | .failed w e =>
          some ⟨tr3, { st1 with work := some (data.take w) }, some ⟨"write", directory, wname, "", e⟩⟩
      | .done w =>
        let st2 : DirState := { st1 with work := some (data.take w) }
        match env.syncWorkRes with
        | .err e => some ⟨tr3 ++ [.syncWork wname], st2, some ⟨"fsync", directory, wname, "", e⟩⟩
        | .ok =>
          match env.closeWorkRes with
          | .err e =>
              some ⟨tr3 ++ [.syncWork wname, .closeWork wname], st2,
                    some ⟨"close", directory, wname, "", e⟩⟩
          | .ok =>
            match env.renameRes with
            | .err e =>
                some ⟨tr3 ++ [.syncWork wname, .closeWork wname, .renameWork wname fileName], st2,
                      some ⟨"rename", directory, wname, fileName, e⟩⟩
            | .ok =>
              let st3 : DirState := ⟨st2.work, none⟩
              match env.syncDirRes with
              | .err e =>
                  some ⟨tr3 ++ [.syncWork wname, .closeWork wname, .renameWork wname fileName,
                                .syncDir directory], st3,
                        some ⟨"fsync", directory, "", "", e⟩⟩
              | .ok =>
                match env.closeDirRes with
                | .err e =>
                    some ⟨canonicalTrace directory fileName, st3,
                          some ⟨"close", directory, "", "", e⟩⟩
                | .ok => some ⟨canonicalTrace directory fileName, st3, none⟩

/-- The successive chunks a sequence of `read` syscalls with a 4096-byte
buffer returns for a file with the given contents. -/
def chunks4096 : List Nat → List (List Nat)
  | [] => []
  | c :: rest => ((c :: rest).take 4096) :: chunks4096 ((c :: rest).drop 4096)
termination_by l => l.length
decreasing_by
  simp only [List.length_drop, List.length_cons]
  omega

/-- Embedding of the read loop of `readFile` (fsynctest.cpp lines
160-164), one step per `read` syscall: each successful syscall returns
the next 4096-byte chunk, which is appended; after the last chunk one
more syscall returns 0 (EOF) and the loop stops.  `env k` injects a
negative return with the given errno at the `k`-th syscall. -/
def readLoopChunks (env : Nat → Option Nat) :
    Nat → List Nat → List (List Nat) → Except Nat (List Nat)
  | k, acc, [] =>
      match env k with
      | some e => .error e
      | none => .ok acc
  | k, acc, chunk :: rest =>
      match env k with
      | some e => .error e
      | none => readLoopChunks env (k + 1) (acc ++ chunk) rest

/-- The whole read loop of `readFile` on a file with the given contents. -/
def readLoop (env : Nat → Option Nat) (k : Nat) (contents : List Nat) (acc : List Nat) :
    Except Nat (List Nat) :=
  readLoopChunks env k acc (chunks4096 contents)

/-- Result of `readFile`: the value returned or the error thrown, and
whether the file descriptor obtained from `open` was closed. -/
structure ReadResult where
  result : Except ReadError (List Nat)
  fdClosed : Bool
deriving Repr

/-- Embedding of `readFile` (fsynctest.cpp lines 154-172).  `file` is
the contents bound to `path` (`none` = absent, so `open` fails with
ENOENT); `openFail` injects an `open` failure; `readEnv` injects read
syscall failures; `errnoAfterClose` is the errno value after the
`close(fd)` call, which the code guards against by saving errno first. -/
def readFileModel (path : String) (file : Option (List Nat)) (openFail : Option Nat)
    (readEnv : Nat → Option Nat) (errnoAfterClose : Nat) : ReadResult :=
  match file, openFail with
  | none, o => ⟨.error ⟨"open", path, o.getD ENOENT⟩, false⟩
  | some _, some e => ⟨.error ⟨"open", path, e⟩, false⟩
  | some contents, none =>
      match readLoop readEnv 0 contents [] with
      | .ok s =>
          let _errnoNow := errnoAfterClose
          ⟨.ok s, true⟩
      | .error e =>
          let savedErrno := e
          let _errnoNow := errnoAfterClose
          ⟨.error ⟨"read", path, savedErrno⟩, true⟩

/-- Syscall results for one run of `CommittedFile::cleanup`.
`unlinkRes` is the result of the `unlinkat` when the `.work` entry
exists; when it does not exist the syscall fails with ENOENT. -/
structure CleanupEnv where
  openDirRes : SysRes
  unlinkRes : SysRes
  closeDirRes : SysRes
deriving DecidableEq, Repr

/-- A `CleanupEnv` in which every syscall succeeds. -/
def allOkCleanupEnv : CleanupEnv := ⟨.ok, .ok, .ok⟩

/-- Embedding of `CommittedFile::cleanup` (fsynctest.cpp lines 344-355),
run by the constructor: open the parent directory, `unlinkat` the
`.work` sibling with ENOENT treated as success (`DirFd::unlink`, lines
259-263), close the directory. -/
def cleanup (directory fileName : String) (env : CleanupEnv) (st : DirState) :
    DirState × Option IoError :=
  match env.openDirRes with
  | .err e => (st, some ⟨"open", directory, "", "", e⟩)
  | .ok =>
    let unlinkOutcome : SysRes := if st.work.isSome then env.unlinkRes else .err ENOENT
    match unlinkOutcome with
    | .ok =>
        let st1 : DirState := { st with work := none }
        match env.closeDirRes with
        | .err e => (st1, some ⟨"close", directory, "", "", e⟩)
        | .ok => (st1, none)
    | .err e =>
        if e = ENOENT then
          match env.closeDirRes with
          | .err e2 => (st, some ⟨"close", directory, "", "", e2⟩)
          | .ok => (st, none)
        else (st, some ⟨"unlink", directory, workName fileName, "", e⟩)

/-- State of a `BaseFd` object: the stored descriptor number
(`-1` after an explicit `close`). -/
structure BaseFdState where
  fd : Int
deriving DecidableEq, Repr

/-- Embedding of `BaseFd::close` (fsynctest.cpp lines 237-246): if the
stored descriptor is valid, mark it invalid first, then issue `::close`;
a failing `::close` (errno from `outcome`) throws.  Returns the new
state, the descriptor numbers on which `::close` was issued, and the
surfaced errno, if any. -/
def explicitClose (st : BaseFdState) (outcome : Option Nat) :
    BaseFdState × List Int × Option Nat :=
  if 0 ≤ st.fd then
    let copy := st.fd
    (⟨-1⟩, [copy], outcome)
  else (st, [], none)

/-- Embedding of `BaseFd::~BaseFd` (fsynctest.cpp lines 218-223): if the
stored descriptor is valid, issue `::close` and ignore its result.
Returns the descriptor numbers on which `::close` was issued; no error
is ever surfaced. -/
def destructorClose (st : BaseFdState) : List Int :=
  if 0 ≤ st.fd then [st.fd] else []

/-- Record of a whole lifetime of one `BaseFd`: how many `::close`
syscalls the explicit `close()` calls issued, the errno surfaced by each
explicit call (`none` = returned normally), and whether the destructor
issued a `::close`. -/
structure CloseRun where
  explicitSyscalls : List Int
  surfaced : List (Option Nat)
  dtorSyscalls : List Int
deriving DecidableEq, Repr

/-- One explicit `close()` call folded over the lifetime accumulator
(object state, `::close` syscalls so far, surfaced errnos so far). -/
def closeStep (acc : BaseFdState × List Int × List (Option Nat)) (o : Option Nat) :
    BaseFdState × List Int × List (Option Nat) :=
  ((explicitClose acc.1 o).1,
   acc.2.1 ++ (explicitClose acc.1 o).2.1,
   acc.2.2 ++ [(explicitClose acc.1 o).2.2])

/-- Run a sequence of explicit `close()` calls (with the given `::close`
outcomes) followed by destruction, starting from descriptor `fd0`. -/
def runFdLifetime (fd0 : Int) (outcomes : List (Option Nat)) : CloseRun :=
  let r := outcomes.foldl closeStep (⟨fd0⟩, [], [])
  ⟨r.2.1, r.2.2, destructorClose r.1⟩

/-- The whitespace characters C `isspace` recognises in the default
locale, as skipped by `atoi`. -/
def isSpaceChar (c : Char) : Bool :=
  c = ' ' || c = '\t' || c = '\n' || c = '\x0b' || c = '\x0c' || c = '\r'

/-- Value of the leading run of decimal digits (0 when there is none). -/
def digitsVal (l : List Char) : Nat :=
  (l.takeWhile Char.isDigit).foldl (fun a c => 10 * a + (c.toNat - 48)) 0

/-- Embedding of C `atoi` as used by `main` (fsynctest.cpp line 202):
skip leading whitespace, an optional sign, then the leading run of
decimal digits (value 0 when there are none; trailing characters are
ignored).  The model is unbounded; `atoi` overflow is undefined
behaviour in C and is not modelled. -/
def atoiModel (s : String) : Int :=
  match s.data.dropWhile isSpaceChar with
  | '-' :: rest => -(digitsVal rest : Int)
  | '+' :: rest => (digitsVal rest : Int)
  | l => (digitsVal l : Int)

/-- Modelled from the spec: "`<count>` must parse as a positive integer"
read strictly — the whole argument is a non-empty run of decimal digits
whose value is at least 1. -/
def specParsePositiveInt (s : String) : Option Nat :=
  if s.data ≠ [] ∧ s.data.all Char.isDigit then
    let n := s.data.foldl (fun a c => 10 * a + (c.toNat - 48)) 0
    if 1 ≤ n then some n else none
  else none

/-- Observable behaviour of `main`: print the usage line and exit with
the given status, or perform `n` write iterations. -/
inductive MainResult where
  | usageExit (status : Nat) : MainResult
  | iterations (n : Nat) : MainResult
deriving DecidableEq, Repr

/-- Embedding of `main` (fsynctest.cpp lines 196-207) with `usage`
(lines 183-187): `args` is the full argv including the program name;
`argc != 3` or `atoi(argv[2]) < 1` prints usage and exits 0, otherwise
the loop runs `count` iterations. -/
def mainModel (args : List String) : MainResult :=
  if args.length ≠ 3 then .usageExit 0
  else
    let count : Int := atoiModel (args.getD 2 "")
    if count < 1 then .usageExit 0 else .iterations count.toNat

/-! ## Helper lemmas -/

theorem writeAllGo_done_ge (size : Nat) (rets : List WriteRet) :
    ∀ (written w : Nat), writeAllGo size written rets = .done w → size ≤ w := by
  induction rets with
  | nil =>
      intro written w h
      unfold writeAllGo at h
      by_cases hle : size ≤ written
      · simp [hle] at h
        omega
      · simp [hle] at h
  | cons r rest ih =>
      intro written w h
      unfold writeAllGo at h
      by_cases hle : size ≤ written
      · simp [hle] at h
        omega
      · simp [hle] at h
        cases r with
        | failWith e => simp at h
        | wrote n => exact ih _ _ h

theorem writeAllGo_done_valid (size : Nat) (rets : List WriteRet) :
    ∀ (written w : Nat), written ≤ size → validRets size written rets = true →
      writeAllGo size written rets = .done w → w = size := by
  induction rets with
  | nil =>
      intro written w hw hv h
      unfold writeAllGo at h
      by_cases hle : size ≤ written
      · simp [hle] at h
        omega
      · simp [hle] at h
  | cons r rest ih =>
      intro written w hw hv h
      unfold writeAllGo at h
      by_cases hle : size ≤ written
      · simp [hle] at h
        omega
      · simp [hle] at h
        cases r with
        | failWith e => simp at h
        | wrote n =>
            unfold validRets at hv
            rw [if_pos (by omega)] at hv
            simp only [Bool.and_eq_true, decide_eq_true_eq] at hv
            exact ih (written + n) w (by omega) hv.2 h

theorem writeAllGo_step (size written n : Nat) (rest : List WriteRet) (hlt : written < size) :
    writeAllGo size written (.wrote n :: rest) = writeAllGo size (written + n) rest := by
  conv_lhs => rw [writeAllGo]
  simp [Nat.not_le.mpr hlt]

theorem chunks4096_join : ∀ (n : Nat) (l : List Nat), l.length ≤ n →
    (chunks4096 l).flatten = l := by
  intro n
  induction n with
  | zero =>
      intro l hlen
      have hc : l = [] := List.length_eq_zero.mp (Nat.le_zero.mp hlen)
      subst hc
      simp [chunks4096]
  | succ n ih =>
      intro l hlen
      cases l with
      | nil => simp [chunks4096]
      | cons c rest =>
          rw [chunks4096]
          simp only [List.length_cons] at hlen
          rw [List.flatten_cons,
              ih ((c :: rest).drop 4096)
                (by simp only [List.length_drop, List.length_cons]; omega)]
          exact List.take_append_drop 4096 (c :: rest)

theorem readLoopChunks_allOk : ∀ (cs : List (List Nat)) (k : Nat) (acc : List Nat),
    readLoopChunks (fun _ => none) k acc cs = .ok (acc ++ cs.flatten) := by
  intro cs
  induction cs with
  | nil => intro k acc; simp [readLoopChunks]
  | cons chunk rest ih =>
      intro k acc
      simp [readLoopChunks, ih (k + 1) (acc ++ chunk)]

theorem readLoop_allOk (contents : List Nat) (k : Nat) (acc : List Nat) :
    readLoop (fun _ => none) k contents acc = .ok (acc ++ contents) := by
  rw [readLoop, readLoopChunks_allOk, chunks4096_join contents.length contents le_rfl]

theorem commitWrite_cases (directory fileName : String) (data : List Nat) (env : WriteEnv)
    (st : DirState) (out : WriteOutcome)
    (h : commitWrite directory fileName data env st = some out) :
    (∃ e, out = ⟨tracePrefix directory fileName 1, st, some ⟨"open", directory, "", "", e⟩⟩) ∨
    (∃ e, out = ⟨tracePrefix directory fileName 2, st,
                 some ⟨"open", directory, workName fileName, "", e⟩⟩) ∨
    (∃ w e, writeAllGo data.length 0 env.writeRets = .failed w e ∧
        out = ⟨tracePrefix directory fileName 3, ⟨st.target, some (data.take w)⟩,
               some ⟨"write", directory, workName fileName, "", e⟩⟩) ∨
    (∃ w e, writeAllGo data.length 0 env.writeRets = .done w ∧
        out = ⟨tracePrefix directory fileName 4, ⟨st.target, some (data.take w)⟩,
               some ⟨"fsync", directory, workName fileName, "", e⟩⟩) ∨
    (∃ w e, writeAllGo data.length 0 env.writeRets = .done w ∧
        out = ⟨tracePrefix directory fileName 5, ⟨st.target, some (data.take w)⟩,
               some ⟨"close", directory, workName fileName, "", e⟩⟩) ∨
    (∃ w e, writeAllGo data.length 0 env.writeRets = .done w ∧
        out = ⟨tracePrefix directory fileName 6, ⟨st.target, some (data.take w)⟩,
               some ⟨"rename", directory, workName fileName, fileName, e⟩⟩) ∨
    (∃ w e, writeAllGo data.length 0 env.writeRets = .done w ∧
        out = ⟨tracePrefix directory fileName 7, ⟨some (data.take w), none⟩,
               some ⟨"fsync", directory, "", "", e⟩⟩) ∨
    (∃ w e, writeAllGo data.length 0 env.writeRets = .done w ∧
        out = ⟨canonicalTrace directory fileName, ⟨some (data.take w), none⟩,
               some ⟨"close", directory, "", "", e⟩⟩) ∨
    (∃ w, writeAllGo data.length 0 env.writeRets = .done w ∧
        out = ⟨canonicalTrace directory fileName, ⟨some (data.take w), none⟩, none⟩) := by
  obtain ⟨o1, o2, wrs, o3, o4, o5, o6, o7⟩ := env
  cases o1 with
  | err e =>
      simp only [commitWrite, Option.some.injEq] at h
      exact Or.inl ⟨e, h.symm⟩
  | ok =>
  cases o2 with
  | err e =>
      simp only [commitWrite, Option.some.injEq] at h
      exact Or.inr (Or.inl ⟨e, h.symm⟩)
  | ok =>
  cases hw : writeAllGo data.length 0 wrs with
  | exhausted w =>
      simp [commitWrite, hw] at h
  | failed w e =>
      simp only [commitWrite, hw, Option.some.injEq] at h
      exact Or.inr (Or.inr (Or.inl ⟨w, e, rfl, h.symm⟩))
  | done w =>
  cases o3 with
  | err e =>
      simp only [commitWrite, hw, Option.some.injEq] at h
      exact Or.inr (Or.inr (Or.inr (Or.inl ⟨w, e, rfl, h.symm⟩)))
  | ok =>
  cases o4 with
  | err e =>
      simp only [commitWrite, hw, Option.some.injEq] at h
      exact Or.inr (Or.inr (Or.inr (Or.inr (Or.inl ⟨w, e, rfl, h.symm⟩))))
  | ok =>
  cases o5 with
  | err e =>
      simp only [commitWrite, hw, Option.some.injEq] at h
      exact Or.inr (Or.inr (Or.inr (Or.inr (Or.inr (Or.inl ⟨w, e, rfl, h.symm⟩)))))
  | ok =>
  cases o6 with
  | err e =>
      simp only [commitWrite, hw, Option.some.injEq] at h
      exact Or.inr (Or.inr (Or.inr (Or.inr (Or.inr (Or.inr (Or.inl ⟨w, e, rfl, h.symm⟩))))))
  | ok =>
  cases o7 with
  | err e =>
      simp only [commitWrite, hw, Option.some.injEq] at h
      exact Or.inr (Or.inr (Or.inr (Or.inr (Or.inr (Or.inr (Or.inr (Or.inl ⟨w, e, rfl, h.symm⟩)))))))
  | ok =>
      simp only [commitWrite, hw, Option.some.injEq] at h
      exact Or.inr (Or.inr (Or.inr (Or.inr (Or.inr (Or.inr (Or.inr (Or.inr ⟨w, rfl, h.symm⟩)))))))

/-! ## Claims -/

/-- C6: `WriteFd::writeAll` writes the complete buffer, looping over
short writes by advancing the offset by the byte count each `::write`
reports until all bytes are consumed; a negative syscall return raises
`IoError(write, directory, name)`; success is never reported with fewer
than `size` bytes written, and under the POSIX bound on reported counts
success means exactly `size` bytes. -/
theorem writeAll_spec (directory file : String) (size : Nat) (rets : List WriteRet) :
    (∀ w, writeAll directory file size rets = .ok w → size ≤ w) ∧
    (validRets size 0 rets = true →
      ∀ w, writeAll directory file size rets = .ok w → w = size) ∧
    (∀ w e, writeAllGo size 0 rets = .failed w e →
      writeAll directory file size rets = .ioError ⟨"write", directory, file, "", e⟩) ∧
    (∀ written n rest, written < size →
      writeAllGo size written (.wrote n :: rest) = writeAllGo size (written + n) rest) := by
  refine ⟨?_, ?_, ?_, ?_⟩
  · intro w h
    unfold writeAll at h
    cases hg : writeAllGo size 0 rets <;> simp [hg] at h
    exact h ▸ writeAllGo_done_ge size rets 0 _ hg
  · intro hv w h
    unfold writeAll at h
    cases hg : writeAllGo size 0 rets <;> simp [hg] at h
    exact h ▸ writeAllGo_done_valid size rets 0 _ (Nat.zero_le _) hv hg
  · intro w e hg
    unfold writeAll
    rw [hg]
  · intro written n rest hlt
    exact writeAllGo_step size written n rest hlt

/-- C2: `CommittedFile::write` executes the commit protocol in the fixed
order open-directory, create-or-truncate `basename+".work"` with mode
0644, write-all, fsync file, close file, rename over target, fsync
directory, close directory: every trace is a prefix of that order, a
successful run is exactly the full order, a failing run ends at the
failing step (whose syscall matches the error's operation), and a rename
only ever occurs as step 6 — never as compensation after a failure. -/
theorem commitWrite_protocol_order (directory fileName : String) (data : List Nat)
    (env : WriteEnv) (st : DirState) (out : WriteOutcome)
    (h : commitWrite directory fileName data env st = some out) :
    out.trace <+: canonicalTrace directory fileName ∧
    (out.error = none → out.trace = canonicalTrace directory fileName) ∧
    (∀ e, out.error = some e → ∃ s, out.trace.getLast? = some s ∧ stepOp s = e.op) ∧
    (Step.renameWork (workName fileName) fileName ∈ out.trace → 6 ≤ out.trace.length) ∧
    createMode = 0o644 := by
  rcases commitWrite_cases directory fileName data env st out h with
    ⟨e, rfl⟩ | ⟨e, rfl⟩ | ⟨w, e, hw, rfl⟩ | ⟨w, e, hw, rfl⟩ | ⟨w, e, hw, rfl⟩ |
    ⟨w, e, hw, rfl⟩ | ⟨w, e, hw, rfl⟩ | ⟨w, e, hw, rfl⟩ | ⟨w, hw, rfl⟩ <;>
  refine ⟨?_, ?_, ?_, ?_, by decide⟩ <;>
  first
    | exact List.take_prefix _ _
    | exact List.prefix_refl _
    | simp [tracePrefix, canonicalTrace, stepOp]

/-- Witness for `commitWrite_protocol_order`: a fully successful
two-byte commit. -/
theorem commitWrite_protocol_order_witness :
    canonicalTrace "d" "f" <+: canonicalTrace "d" "f" ∧ createMode = 0o644 := by
  have h := commitWrite_protocol_order "d" "f" [1, 2] (allOkWriteEnv [.wrote 2]) ⟨none, none⟩
      ⟨canonicalTrace "d" "f", ⟨some [1, 2], none⟩, none⟩ (by decide)
  exact ⟨h.1, h.2.2.2.2⟩

/-- C1: round-trip — when `CommittedFile::write(B)` returns successfully
the target name is bound to exactly `B`, and a subsequent `read()` of it
(no read-side syscall failing) returns exactly `B` and closes its
descriptor. -/
theorem commitWrite_read_roundTrip (directory fileName path : String) (data : List Nat)
    (env : WriteEnv) (st : DirState) (out : WriteOutcome) (c : Nat)
    (h : commitWrite directory fileName data env st = some out)
    (hsucc : out.error = none) :
    out.state.target = some data ∧
    readFileModel path out.state.target none (fun _ => none) c = ⟨.ok data, true⟩ := by
  rcases commitWrite_cases directory fileName data env st out h with
    ⟨e, rfl⟩ | ⟨e, rfl⟩ | ⟨w, e, hw, rfl⟩ | ⟨w, e, hw, rfl⟩ | ⟨w, e, hw, rfl⟩ |
    ⟨w, e, hw, rfl⟩ | ⟨w, e, hw, rfl⟩ | ⟨w, e, hw, rfl⟩ | ⟨w, hw, rfl⟩
  case inl => exact absurd hsucc (by simp)
  case inr.inl => exact absurd hsucc (by simp)
  case inr.inr.inl => exact absurd hsucc (by simp)
  case inr.inr.inr.inl => exact absurd hsucc (by simp)
  case inr.inr.inr.inr.inl => exact absurd hsucc (by simp)
  case inr.inr.inr.inr.inr.inl => exact absurd hsucc (by simp)
  case inr.inr.inr.inr.inr.inr.inl => exact absurd hsucc (by simp)
  case inr.inr.inr.inr.inr.inr.inr.inl => exact absurd hsucc (by simp)
  case inr.inr.inr.inr.inr.inr.inr.inr =>
    have hlen : data.length ≤ w := writeAllGo_done_ge data.length env.writeRets 0 w hw
    have htake : data.take w = data := List.take_of_length_le hlen
    refine ⟨by simp [htake], ?_⟩
    simp only [htake]
    simp only [readFileModel]
    rw [readLoop_allOk]
    simp

/-- Witness for `commitWrite_read_roundTrip`: a successful two-byte
commit followed by a read returning the same bytes. -/
theorem commitWrite_read_roundTrip_witness :
    (⟨some [7, 8], none⟩ : DirState).target = some [7, 8] ∧
    readFileModel "/d/f" (some [7, 8]) none (fun _ => none) 0 = ⟨.ok [7, 8], true⟩ :=
  commitWrite_read_roundTrip "d" "f" "/d/f" [7, 8] (allOkWriteEnv [.wrote 2]) ⟨none, none⟩
    ⟨canonicalTrace "d" "f", ⟨some [7, 8], none⟩, none⟩ 0 (by decide) rfl

/-- C3: frame on failure — starting with no `.work` sibling, if the
protocol fails without attempting the rename, the contents bound to the
target name are unchanged, and the `.work` name is absent or holds a
prefix of the payload. -/
theorem commitWrite_failure_frame (directory fileName : String) (data : List Nat)
    (env : WriteEnv) (st : DirState) (out : WriteOutcome)
    (hwork : st.work = none)
    (h : commitWrite directory fileName data env st = some out)
    (hfail : out.error.isSome)
    (hnorename : Step.renameWork (workName fileName) fileName ∉ out.trace) :
    out.state.target = st.target ∧
    (out.state.work = none ∨ ∃ pre, out.state.work = some pre ∧ pre <+: data) := by
  rcases commitWrite_cases directory fileName data env st out h with
    ⟨e, rfl⟩ | ⟨e, rfl⟩ | ⟨w, e, hw, rfl⟩ | ⟨w, e, hw, rfl⟩ | ⟨w, e, hw, rfl⟩ |
    ⟨w, e, hw, rfl⟩ | ⟨w, e, hw, rfl⟩ | ⟨w, e, hw, rfl⟩ | ⟨w, hw, rfl⟩
  case inl => exact ⟨rfl, Or.inl hwork⟩
  case inr.inl => exact ⟨rfl, Or.inl hwork⟩
  case inr.inr.inl =>
    exact ⟨rfl, Or.inr ⟨data.take w, rfl, List.take_prefix _ _⟩⟩
  case inr.inr.inr.inl =>
    exact ⟨rfl, Or.inr ⟨data.take w, rfl, List.take_prefix _ _⟩⟩
  case inr.inr.inr.inr.inl =>
    exact ⟨rfl, Or.inr ⟨data.take w, rfl, List.take_prefix _ _⟩⟩
  case inr.inr.inr.inr.inr.inl =>
    exact absurd (by simp [tracePrefix, canonicalTrace]) hnorename
  case inr.inr.inr.inr.inr.inr.inl =>
    exact absurd (by simp [tracePrefix, canonicalTrace]) hnorename
  case inr.inr.inr.inr.inr.inr.inr.inl =>
    exact absurd (by simp [canonicalTrace]) hnorename
  case inr.inr.inr.inr.inr.inr.inr.inr => exact absurd hfail (by simp)

/-- Witness for `commitWrite_failure_frame`: the file `fsync` fails with
errno 28 after the one-byte payload reached the `.work` file; the target
still holds its old contents. -/
theorem commitWrite_failure_frame_witness :
    (⟨some [1], some [9]⟩ : DirState).target = some [1] ∧
    ((⟨some [1], some [9]⟩ : DirState).work = none ∨
      ∃ pre, (⟨some [1], some [9]⟩ : DirState).work = some pre ∧ pre <+: [9]) :=
  commitWrite_failure_frame "d" "f" [9]
    ⟨.ok, .ok, [.wrote 1], .err 28, .ok, .ok, .ok, .ok⟩ ⟨some [1], none⟩
    ⟨tracePrefix "d" "f" 4, ⟨some [1], some [9]⟩, some ⟨"fsync", "d", workName "f", "", 28⟩⟩
    rfl (by decide) (by decide) (by decide)

/-- C10: the empty payload commits — `writeAll` with a zero-length
buffer terminates at once without consulting the `::write` oracle, the
full commit protocol (fsync, rename, directory fsync) still runs, and a
subsequent read returns the empty byte sequence. -/
theorem emptyPayload_commit (directory fileName path : String) (st : DirState)
    (rets : List WriteRet) (c : Nat) :
    writeAllGo 0 0 rets = .done 0 ∧
    commitWrite directory fileName [] (allOkWriteEnv rets) st =
      some ⟨canonicalTrace directory fileName, ⟨some [], none⟩, none⟩ ∧
    readFileModel path (some []) none (fun _ => none) c = ⟨.ok [], true⟩ := by
  have h0 : writeAllGo 0 0 rets = .done 0 := by
    unfold writeAllGo
    simp
  refine ⟨h0, ?_, ?_⟩
  · simp [commitWrite, allOkWriteEnv, h0]
  · simp only [readFileModel]
    rw [readLoop_allOk]
    simp

/-- C4: stale cleanup — with the directory open and close succeeding,
`CommittedFile` construction succeeds whether or not a `.work` sibling
exists (the ENOENT that `unlinkat` reports for a missing entry is
swallowed), any other `unlinkat` errno propagates as
`IoError(unlink, directory, workname)`, and whenever construction
returns without error no `.work` sibling remains. -/
theorem cleanup_spec (directory fileName : String) (env : CleanupEnv) (st : DirState)
    (hopen : env.openDirRes = .ok) (hclose : env.closeDirRes = .ok) :
    (st.work = none → cleanup directory fileName env st = (st, none)) ∧
    (env.unlinkRes = .ok →
      (cleanup directory fileName env st).2 = none ∧
      (cleanup directory fileName env st).1.work = none) ∧
    (∀ e, e ≠ ENOENT → st.work.isSome → env.unlinkRes = .err e →
      (cleanup directory fileName env st).2 =
        some ⟨"unlink", directory, workName fileName, "", e⟩) ∧
    ((st.work.isSome → env.unlinkRes ≠ .err ENOENT) →
      (cleanup directory fileName env st).2 = none →
      (cleanup directory fileName env st).1.work = none) := by
  obtain ⟨u1, u2, u3⟩ := env
  cases u1 with
  | err e => exact absurd hopen (by simp)
  | ok =>
  cases u3 with
  | err e => exact absurd hclose (by simp)
  | ok =>
  obtain ⟨t, wk⟩ := st
  cases wk with
  | none =>
      refine ⟨fun _ => by simp [cleanup, ENOENT], fun _ => by simp [cleanup, ENOENT],
              fun e hne hsome _ => by simp at hsome, fun _ _ => by simp [cleanup, ENOENT]⟩
  | some wcontent =>
      cases u2 with
      | ok =>
          refine ⟨fun hn => by simp at hn, fun _ => by simp [cleanup],
                  fun e hne hsome hu => by simp at hu, fun _ _ => by simp [cleanup]⟩
      | err e2 =>
          by_cases he2 : e2 = ENOENT
          · subst he2
            refine ⟨fun hn => by simp at hn, fun hu => by simp at hu,
                    fun e hne hsome hu => ?_, fun hreal _ => ?_⟩
            · rw [show e = ENOENT from by injection hu.symm] at hne
              exact absurd rfl hne
            · exact absurd rfl (hreal (by simp))
          · refine ⟨fun hn => by simp at hn, fun hu => by simp at hu,
                    fun e hne hsome hu => ?_, fun _ hnone => ?_⟩
            · rw [show e = e2 from by injection hu.symm]
              simp [cleanup, he2]
            · rw [show (cleanup directory fileName ⟨.ok, .err e2, .ok⟩ ⟨t, some wcontent⟩).2 =
                    some ⟨"unlink", directory, workName fileName, "", e2⟩ from by
                  simp [cleanup, he2]] at hnone
              exact absurd hnone (by simp)

/-- Witness for `cleanup_spec`: an all-succeeding construction over a
directory holding both the target and a stale `.work` file. -/
theorem cleanup_spec_witness :
    (cleanup "d" "f" allOkCleanupEnv ⟨some [1], some [2]⟩).2 = none ∧
    (cleanup "d" "f" allOkCleanupEnv ⟨some [1], some [2]⟩).1.work = none :=
  (cleanup_spec "d" "f" allOkCleanupEnv ⟨some [1], some [2]⟩ rfl rfl).2.1 rfl

theorem foldl_closeStep_inert (rest : List (Option Nat)) :
    ∀ (sys : List Int) (errs : List (Option Nat)),
      rest.foldl closeStep (⟨-1⟩, sys, errs) =
        (⟨-1⟩, sys, errs ++ rest.map (fun _ => (none : Option Nat))) := by
  induction rest with
  | nil => intro sys errs; simp
  | cons o rest ih =>
      intro sys errs
      rw [List.foldl_cons]
      have hstep : closeStep (⟨-1⟩, sys, errs) o = (⟨-1⟩, sys ++ [], errs ++ [none]) := by
        simp [closeStep, explicitClose]
      rw [hstep, ih]
      simp

/-- C5: descriptor hygiene — starting from a valid descriptor, across
any sequence of explicit `close()` calls followed by destruction the
underlying `::close` is issued exactly once on that descriptor; the
first explicit call surfaces its `::close` errno, every later explicit
call is a no-op surfacing nothing, and the destructor only closes (and
swallows any error) when no explicit call happened. -/
theorem descriptor_closed_exactly_once (fd0 : Int) (h : 0 ≤ fd0)
    (outcomes : List (Option Nat)) :
    (runFdLifetime fd0 outcomes).explicitSyscalls ++
      (runFdLifetime fd0 outcomes).dtorSyscalls = [fd0] ∧
    (runFdLifetime fd0 outcomes).dtorSyscalls =
      (if outcomes.isEmpty then [fd0] else []) ∧
    (runFdLifetime fd0 outcomes).surfaced =
      (match outcomes with
       | [] => []
       | o :: rest => o :: rest.map (fun _ => none)) := by
  cases outcomes with
  | nil => simp [runFdLifetime, destructorClose, h]
  | cons o rest =>
      have hfirst : closeStep (⟨fd0⟩, [], []) o = (⟨-1⟩, [] ++ [fd0], [] ++ [o]) := by
        simp [closeStep, explicitClose, h]
      simp only [runFdLifetime, List.foldl_cons, hfirst, foldl_closeStep_inert]
      simp [destructorClose]

/-- Witness for `descriptor_closed_exactly_once`: descriptor 3, one
failing explicit close (errno 9) and one further explicit close. -/
theorem descriptor_closed_exactly_once_witness :
    (runFdLifetime 3 [some 9, none]).explicitSyscalls ++
      (runFdLifetime 3 [some 9, none]).dtorSyscalls = [3] ∧
    (runFdLifetime 3 [some 9, none]).dtorSyscalls = [] ∧
    (runFdLifetime 3 [some 9, none]).surfaced = [some 9, none] :=
  descriptor_closed_exactly_once 3 (by decide) [some 9, none]

/-- C7: the reader returns the file's bytes read in 4096-byte chunks,
an empty file yields the empty sequence, the descriptor is closed on
every exit path after a successful open, the result does not depend on
the errno value the intervening `close` leaves behind, and a failing
read syscall's errno is the one reported. -/
theorem readFile_spec (path : String) (contents : List Nat) (readEnv : Nat → Option Nat)
    (c1 c2 : Nat) :
    (readFileModel path (some contents) none readEnv c1).fdClosed = true ∧
    readFileModel path (some contents) none readEnv c1 =
      readFileModel path (some contents) none readEnv c2 ∧
    ((∀ j, readEnv j = none) →
      (readFileModel path (some contents) none readEnv c1).result = .ok contents) ∧
    (readFileModel path (some []) none (fun _ => none) c1).result = .ok [] ∧
    (∀ e, readLoop readEnv 0 contents [] = .error e →
      (readFileModel path (some contents) none readEnv c1).result =
        .error ⟨"read", path, e⟩) := by
  refine ⟨?_, ?_, ?_, ?_, ?_⟩
  · simp only [readFileModel]
    cases hr : readLoop readEnv 0 contents [] <;> simp
  · simp only [readFileModel]
  · intro henv
    have he : readEnv = fun _ => none := funext fun j => henv j
    subst he
    simp only [readFileModel]
    rw [readLoop_allOk]
    simp
  · simp only [readFileModel]
    rw [readLoop_allOk]
    simp
  · intro e hr
    simp only [readFileModel]
    rw [hr]

/-- Witness for `readFile_spec`: a two-byte file read back whole, and a
failing read reporting errno 5. -/
theorem readFile_spec_witness :
    (readFileModel "/p" (some [1, 2]) none (fun _ => none) 0).result = .ok [1, 2] ∧
    (readFileModel "/p" (some [1, 2]) none (fun _ => some 5) 0).result =
      .error ⟨"read", "/p", 5⟩ :=
  ⟨(readFile_spec "/p" [1, 2] (fun _ => none) 0 1).2.2.1 (fun _ => rfl),
   (readFile_spec "/p" [1, 2] (fun _ => some 5) 0 1).2.2.2.2 5 (by
      simp [readLoop, chunks4096, readLoopChunks])⟩

/-- Witness for `writeAll_spec` at a concrete buffer of 5 bytes written
in two chunks, and a failing run. -/
theorem writeAll_spec_witness :
    validRets 5 0 [.wrote 2, .wrote 3] = true ∧
    writeAll "d" "f" 5 [.wrote 2, .wrote 3] = .ok 5 ∧
    (5 : Nat) = 5 ∧
    writeAllGo 5 0 [.wrote 2, .failWith 13] = .failed 2 13 ∧
    writeAll "d" "f" 5 [.wrote 2, .failWith 13] = .ioError ⟨"write", "d", "f", "", 13⟩ :=
  ⟨by decide, by decide,
   (writeAll_spec "d" "f" 5 [.wrote 2, .wrote 3]).2.1 (by decide) 5 (by decide),
   by decide,
   (writeAll_spec "d" "f" 5 [.wrote 2, .failWith 13]).2.2.1 2 13 (by decide)⟩

/-- C8 counterexample: an error message the system produces — the
reader's — does not follow the claimed
`op("<dir>[/<f1>]"): <strerror>` form: `buildCommittedFileReadError`
emits `") "` with no colon before the strerror text. -/
theorem readError_format_counterexample :
    (readFileModel "/tmp/f" (some [1]) none (fun _ => some 5) 0).result =
      .error ⟨"read", "/tmp/f", 5⟩ ∧
    renderReadError (fun _ => "IO") ⟨"read", "/tmp/f", 5⟩ = "read(\"/tmp/f\") IO" ∧
    renderReadError (fun _ => "IO") ⟨"read", "/tmp/f", 5⟩ ≠
      specErrorForm (fun _ => "IO") "read" "/tmp/f" "" "" 5 ∧
    renderReadError (fun _ => "IO") ⟨"read", "/tmp/f", 5⟩ ≠
      specErrorForm (fun _ => "IO") "read" "/tmp" "f" "" 5 := by
  refine ⟨?_, ?_, ?_, ?_⟩
  · simp [readFileModel, readLoop, chunks4096, readLoopChunks]
  · rfl
  · decide
  · decide

/-- C8 amended: messages rendered for the commit protocol's and the
cleanup's errors have the claimed
`op("<dir>[/<f1>]"[, "<dir>/<f2>"]): <strerror(errno)>` form, while
reader errors — whose operation is `open` or `read` — are rendered as
`op("<path>") <strerror(errno)>`, with a space in place of the `"): `
separator. -/
theorem error_string_forms (strerror : Nat → String) (path : String)
    (file : Option (List Nat)) (openFail : Option Nat) (readEnv : Nat → Option Nat)
    (c : Nat) :
    (∀ e : IoError, renderIoError strerror e =
      specErrorForm strerror e.op e.directory e.file1 e.file2 e.errno) ∧
    (∀ func fl er, buildCommittedFileReadError strerror func fl er =
      func ++ "(\"" ++ fl ++ "\") " ++ strerror er) ∧
    (∀ e, (readFileModel path file openFail readEnv c).result = .error e →
      e.op = "open" ∨ e.op = "read") := by
  refine ⟨fun e => rfl, fun func fl er => rfl, fun e he => ?_⟩
  cases file with
  | none =>
      simp only [readFileModel] at he
      injection he with h1
      rw [← h1]
      exact Or.inl rfl
  | some contents =>
      cases openFail with
      | some e0 =>
          simp only [readFileModel] at he
          injection he with h1
          rw [← h1]
          exact Or.inl rfl
      | none =>
          simp only [readFileModel] at he
          cases hr : readLoop readEnv 0 contents [] with
          | ok s => rw [hr] at he; simp at he
          | error e1 =>
              rw [hr] at he
              injection he with h1
              rw [← h1]
              exact Or.inr rfl

/-- Witness for `error_string_forms`: a rename error rendered in the
spec's form, and the reader's failing read carrying operation `read`. -/
theorem error_string_forms_witness :
    renderIoError (fun _ => "IO") ⟨"rename", "d", "f.work", "f", 2⟩ =
      specErrorForm (fun _ => "IO") "rename" "d" "f.work" "f" 2 ∧
    ("read" = "open" ∨ "read" = "read") := by
  have h := error_string_forms (fun _ => "IO") "/p" (some [1]) none (fun _ => some 5) 0
  exact ⟨h.1 ⟨"rename", "d", "f.work", "f", 2⟩,
         h.2.2 ⟨"read", "/p", 5⟩ (by simp [readFileModel, readLoop, chunks4096, readLoopChunks])⟩

theorem isDigit_not_space (x : Char) (hx : x.isDigit = true) : isSpaceChar x = false := by
  by_cases h1 : x = ' '
  · subst h1; exact absurd hx (by decide)
  by_cases h2 : x = '\t'
  · subst h2; exact absurd hx (by decide)
  by_cases h3 : x = '\n'
  · subst h3; exact absurd hx (by decide)
  by_cases h4 : x = '\x0b'
  · subst h4; exact absurd hx (by decide)
  by_cases h5 : x = '\x0c'
  · subst h5; exact absurd hx (by decide)
  by_cases h6 : x = '\r'
  · subst h6; exact absurd hx (by decide)
  unfold isSpaceChar
  simp [h1, h2, h3, h4, h5, h6]

theorem atoiModel_digits (s : String) (hne : s.data ≠ [])
    (hall : s.data.all Char.isDigit = true) :
    atoiModel s = ((s.data.foldl (fun a c => 10 * a + (c.toNat - 48)) 0 : Nat) : Int) := by
  obtain ⟨c, rest, hcr⟩ : ∃ c rest, s.data = c :: rest := by
    cases hs : s.data with
    | nil => exact absurd hs hne
    | cons c rest => exact ⟨c, rest, rfl⟩
  have hmem : ∀ x ∈ s.data, x.isDigit = true := List.all_eq_true.mp hall
  have hcd : c.isDigit = true := hmem c (hcr ▸ List.mem_cons_self c rest)
  have hdrop : s.data.dropWhile isSpaceChar = c :: rest := by
    rw [hcr, List.dropWhile_cons, isDigit_not_space c hcd]
    simp
  have htake : (c :: rest).takeWhile Char.isDigit = c :: rest :=
    List.takeWhile_eq_self_iff.mpr (fun x hx => hmem x (hcr ▸ hx))
  unfold atoiModel
  rw [hdrop]
  split
  · rename_i rest' heq
    injection heq with hc _
    rw [hc] at hcd
    exact absurd hcd (by decide)
  · rename_i rest' heq
    injection heq with hc _
    rw [hc] at hcd
    exact absurd hcd (by decide)
  · unfold digitsVal
    rw [htake, hcr]

theorem specParsePositiveInt_some (s : String) (n : Nat)
    (h : specParsePositiveInt s = some n) :
    s.data ≠ [] ∧ s.data.all Char.isDigit = true ∧
    s.data.foldl (fun a c => 10 * a + (c.toNat - 48)) 0 = n ∧ 1 ≤ n := by
  unfold specParsePositiveInt at h
  split at h
  · rename_i hcond
    dsimp only at h
    split at h
    · rename_i hge
      injection h with h
      exact ⟨hcond.1, hcond.2, h, h ▸ hge⟩
    · exact absurd h (by simp)
  · exact absurd h (by simp)

/-- C9 counterexample: `"3x"` does not parse as a positive integer, yet
the driver neither prints usage nor exits — `atoi` yields 3 from the
leading digit and 3 write iterations run. -/
theorem mainModel_counterexample :
    specParsePositiveInt "3x" = none ∧
    mainModel ["fsynctest", "file", "3x"] = .iterations 3 ∧
    mainModel ["fsynctest", "file", "3x"] ≠ .usageExit 0 := by
  refine ⟨by decide, by decide, by decide⟩

/-- C9 amended: usage-and-exit-0 happens exactly when the argument count
differs from two operands or C `atoi` applied to `<count>` — which takes
the leading integer and ignores trailing characters — yields a value
below 1; otherwise `atoi(<count>)` iterations run.  In particular every
`<count>` that is literally a digit run of value `n ≥ 1` runs exactly
`n` iterations. -/
theorem mainModel_spec (args : List String) (prog fname s : String) (n : Nat) :
    (mainModel args = .usageExit 0 ↔
      args.length ≠ 3 ∨ atoiModel (args.getD 2 "") < 1) ∧
    (mainModel args ≠ .usageExit 0 →
      mainModel args = .iterations (atoiModel (args.getD 2 "")).toNat) ∧
    (specParsePositiveInt s = some n → mainModel [prog, fname, s] = .iterations n) := by
  refine ⟨?_, ?_, ?_⟩
  · by_cases hlen : args.length = 3
    · by_cases hc : atoiModel (args.getD 2 "") < 1
      · simp [mainModel, hlen, hc]
      · simp [mainModel, hlen, hc]
    · simp [mainModel, hlen]
  · by_cases hlen : args.length = 3
    · by_cases hc : atoiModel (args.getD 2 "") < 1
      · simp [mainModel, hlen, hc]
      · simp [mainModel, hlen, hc]
    · simp [mainModel, hlen]
  · intro hp
    obtain ⟨hne, hall, hfold, hge⟩ := specParsePositiveInt_some s n hp
    have hatoi : atoiModel s = (n : Int) := by
      rw [atoiModel_digits s hne hall, hfold]
    have hgetd : ([prog, fname, s].getD 2 "") = s := rfl
    simp only [mainModel, List.length_cons, List.length_nil, hgetd, hatoi]
    rw [if_neg (by omega), if_neg (by
      simp only [not_lt]
      exact_mod_cast hge)]
    simp

/-- Witness for `mainModel_spec`: `<count> = "7"` runs 7 iterations. -/
theorem mainModel_spec_witness :
    specParsePositiveInt "7" = some 7 ∧ mainModel ["p", "f", "7"] = .iterations 7 :=
  ⟨by decide, (mainModel_spec ["p", "f", "7"] "p" "f" "7" 7).2.2 (by decide)⟩

end FsyncTest


